import Mathlib

/-!
Verification of the ML anomaly-detection core of
`.github/scripts/observability/ml-anomaly-detector.py`.

Shallow embedding conventions:
* Python floats are modelled as exact rationals (`ℚ`); the algorithms use only
  field operations, `min`/`max` and comparisons, so the embedding is exact.
* Pandas `NaN` / `±inf` cells are modelled explicitly by the `PdVal` type, so
  `fillna(0)` and `replace([inf, -inf], 0)` are total functions on it.
* `np.sqrt`-style square roots (inside `rolling().std()`) are abstracted as an
  arbitrary function parameter `sqrtFn : ℚ → ℚ`: no verified claim inspects the
  numeric value of a standard deviation, only its NaN-structure.
* The scikit-learn IsolationForest and the keras LSTM are external model
  backends; their numeric outputs (anomaly ratio, feature importances, training
  and validation losses) enter the embedding as parameters, while all control
  flow around them (guards, ensemble fusion, insight generation) is translated
  from the source.
-/

/-- Value of one cell of a pandas numeric column: either a finite rational or
one of the IEEE specials `NaN`, `+inf`, `-inf` that the script clamps away. -/
inductive PdVal where
  | nan : PdVal
  | pinf : PdVal
  | ninf : PdVal
  | val : ℚ → PdVal
deriving DecidableEq, Repr

/-- Embeds `.fillna(0)` applied to one cell. -/
def PdVal.fillna0 : PdVal → PdVal
  | .nan => .val 0
  | x => x

/-- Embeds `.replace([np.inf, -np.inf], 0)` applied to one cell. -/
def PdVal.replaceInf0 : PdVal → PdVal
  | .pinf => .val 0
  | .ninf => .val 0
  | x => x

/-- Raw Metric Record (spec sect. 3): one row of the loaded DataFrame.  The
`timestamp` column is modelled by its two decompositions `dt.hour` and
`dt.dayofweek` actually read by `_engineer_features`; `labels` is a
non-numeric string column and never read by the core, so it is omitted from
the record (it still appears in the engineered schema below). -/
structure RawRecord where
  ts_hour : ℕ
  ts_dow : ℕ
  metric_name : String
  source : String
  value : ℚ
deriving DecidableEq, Repr

/-- Rows of the rolling window ending at row `i` (pandas
`rolling(window=w, min_periods=1)` semantics over row order). -/
def windowSlice (values : List ℚ) (w i : ℕ) : List ℚ :=
  (values.take (i + 1)).drop (i + 1 - w)

/-- Embeds `df[c].rolling(window=w, min_periods=1).mean()` (line 148/149).
With `min_periods=1` every in-range window is non-empty, so no NaN arises. -/
def rollingMean (values : List ℚ) (w : ℕ) : List PdVal :=
  (List.range values.length).map (fun i =>
    let win := windowSlice values w i
    PdVal.val (win.sum / (win.length : ℚ)))

/-- Sample variance (`ddof = 1`, the pandas default) of a window. -/
def sampleVariance (l : List ℚ) : ℚ :=
  let m := l.sum / (l.length : ℚ)
  (l.map (fun x => (x - m) ^ 2)).sum / ((l.length : ℚ) - 1)

/-- Embeds `df[c].rolling(window=w, min_periods=1).std()` (line 150, before
its `.fillna(0)`): NaN for windows of fewer than 2 points, otherwise the
square root of the sample variance (`sqrtFn` abstracts the float sqrt). -/
def rollingStd (sqrtFn : ℚ → ℚ) (values : List ℚ) (w : ℕ) : List PdVal :=
  (List.range values.length).map (fun i =>
    let win := windowSlice values w i
    if win.length < 2 then PdVal.nan else PdVal.val (sqrtFn (sampleVariance win)))

/-- Embeds `df[c].diff()` (line 151, before its `.fillna(0)`): NaN at row 0. -/
def diffCol (values : List ℚ) : List PdVal :=
  (List.range values.length).map (fun i =>
    if i = 0 then PdVal.nan
    else PdVal.val (values.getD i 0 - values.getD (i - 1) 0))

/-- Embeds `df[c].pct_change()` (line 152, before `.fillna(0)` and the inf
replacement), with IEEE semantics of `cur / prev - 1`: NaN at row 0 and for
`0 / 0`, a signed infinity when only the previous value is 0. -/
def pctChangeCol (values : List ℚ) : List PdVal :=
  (List.range values.length).map (fun i =>
    if i = 0 then PdVal.nan
    else
      let prev := values.getD (i - 1) 0
      let cur := values.getD i 0
      if prev = 0 then
        (if cur = 0 then PdVal.nan else if cur > 0 then PdVal.pinf else PdVal.ninf)
      else PdVal.val (cur / prev - 1))

/-- Sorted distinct values of a categorical column: `pd.get_dummies` creates
one indicator column per distinct value, in sorted order. -/
def categoriesOf (values : List String) : List String :=
  List.insertionSort (fun a b : String => a ≤ b) values.dedup

/-- Numeric portion of the engineered table built by `_engineer_features`
(lines 134-165): every numeric column, as a list of cells per column.
Calendar features come from the timestamp decomposition (lines 142-144),
the value-derived features from lines 148-152 with their `fillna`/`replace`
clamps, and one indicator column per distinct `metric_name` / `source`
value from the `pd.get_dummies` expansion (lines 155-159). -/
def featureTable (sqrtFn : ℚ → ℚ) (records : List RawRecord) : List (String × List PdVal) :=
  let values := records.map RawRecord.value
  [("hour", records.map (fun r => PdVal.val r.ts_hour)),
   ("day_of_week", records.map (fun r => PdVal.val r.ts_dow)),
   ("is_weekend", records.map (fun r => PdVal.val (if r.ts_dow = 5 ∨ r.ts_dow = 6 then 1 else 0))),
   ("value", values.map PdVal.val),
   ("value_ma_5", rollingMean values 5),
   ("value_ma_10", rollingMean values 10),
   ("value_std_5", (rollingStd sqrtFn values 5).map PdVal.fillna0),
   ("value_diff", (diffCol values).map PdVal.fillna0),
   ("value_pct_change", ((pctChangeCol values).map PdVal.fillna0).map PdVal.replaceInf0)]
  ++ (categoriesOf (records.map RawRecord.metric_name)).map
      (fun c => ("metric_name_" ++ c, records.map (fun r => PdVal.val (if r.metric_name = c then 1 else 0))))
  ++ (categoriesOf (records.map RawRecord.source)).map
      (fun c => ("source_" ++ c, records.map (fun r => PdVal.val (if r.source = c then 1 else 0))))

/-- Pandas dtype classes relevant to `select_dtypes(include=[np.number])`. -/
inductive Dtype where
  | numeric : Dtype
  | datetime : Dtype
  | object : Dtype
deriving DecidableEq, Repr

/-- Column names and dtypes of the fully engineered DataFrame, in column
order: the five loaded columns (`timestamp` converted to datetime by line
141), the engineered numeric columns, then the `get_dummies` indicator
columns appended by `pd.concat` (metric_name block first, then source).
Indicator columns are 0/1 integer columns, hence numeric. -/
def engineeredSchema (records : List RawRecord) : List (String × Dtype) :=
  [("timestamp", Dtype.datetime), ("metric_name", Dtype.object), ("value", Dtype.numeric),
   ("labels", Dtype.object), ("source", Dtype.object),
   ("hour", Dtype.numeric), ("day_of_week", Dtype.numeric), ("is_weekend", Dtype.numeric),
   ("value_ma_5", Dtype.numeric), ("value_ma_10", Dtype.numeric), ("value_std_5", Dtype.numeric),
   ("value_diff", Dtype.numeric), ("value_pct_change", Dtype.numeric)]
  ++ (categoriesOf (records.map RawRecord.metric_name)).map (fun c => ("metric_name_" ++ c, Dtype.numeric))
  ++ (categoriesOf (records.map RawRecord.source)).map (fun c => ("source_" ++ c, Dtype.numeric))

/-- Embeds `df.select_dtypes(include=[np.number]).columns.tolist()` (line 162). -/
def numeric_columns (records : List RawRecord) : List String :=
  ((engineeredSchema records).filter (fun p => decide (p.2 = Dtype.numeric))).map Prod.fst

/-- Embeds `[col for col in numeric_columns if col not in ['timestamp']]`
(line 163): the frozen feature-column list. -/
def feature_columns (records : List RawRecord) : List String :=
  (numeric_columns records).filter (fun c => decide (c ≠ "timestamp"))

/-- Per-column detail of the statistical scorer (lines 337-341). -/
structure ColDetail where
  z_score_anomalies : ℕ
  iqr_anomalies : ℕ
  total_points : ℕ
deriving DecidableEq, Repr

/-- Output of `statistical_anomaly_detection` (lines 347-353); the constant
`method` field is dropped. -/
structure StatResult where
  column_details : List (String × ColDetail)
  total_anomalies : ℕ
  total_points : ℕ
  anomaly_rate : ℚ
deriving DecidableEq, Repr

/-- Exact-rational encoding of `|zscore(v)| > 3` with `ddof = 0`: with mean
`mean` and sum of squared deviations `ssd` over `n` points, a value has
`|z| > 3` iff `(v - mean)^2 * n > 9 * ssd`. -/
def zFlag (mean ssd n : ℚ) (v : ℚ) : Bool :=
  decide ((v - mean) ^ 2 * n > 9 * ssd)

/-- Embeds lines 326-327: `z_scores = np.abs(stats.zscore(values))` with
`ddof = 0`, then `(z_scores > 3).sum()`.  When `ssd = 0` every z-score is NaN
and the comparison with 3 is IEEE-false, which the encoding reproduces
because every deviation is then 0. -/
def zscore_anomalies (values : List ℚ) : ℕ :=
  let n : ℚ := values.length
  let mean := values.sum / n
  let ssd := (values.map (fun v => (v - mean) ^ 2)).sum
  (values.filter (zFlag mean ssd n)).length

/-- Pandas `Series.quantile(p)` with the default linear interpolation, on an
already sorted list: index position `h = p * (n - 1)`, interpolating between
the neighbouring order statistics. -/
def quantile (sorted : List ℚ) (p : ℚ) : ℚ :=
  let h := p * ((sorted.length : ℚ) - 1)
  let f := ⌊h⌋₊
  let lo := sorted.getD f 0
  let hi := sorted.getD (f + 1) lo
  lo + (h - (f : ℚ)) * (hi - lo)

/-- The IQR lower fence `Q1 - 1.5 * IQR` of lines 330-334. -/
def iqrLower (sorted : List ℚ) : ℚ :=
  quantile sorted 0.25 - 1.5 * (quantile sorted 0.75 - quantile sorted 0.25)

/-- The IQR upper fence `Q3 + 1.5 * IQR` of lines 330-334. -/
def iqrUpper (sorted : List ℚ) : ℚ :=
  quantile sorted 0.75 + 1.5 * (quantile sorted 0.75 - quantile sorted 0.25)

/-- The per-value outlier test of line 335:
`(values < lower_bound) | (values > upper_bound)`. -/
def iqrFlag (lower_bound upper_bound : ℚ) (v : ℚ) : Bool :=
  decide (v < lower_bound) || decide (v > upper_bound)

/-- Embeds lines 330-335: the IQR outlier count with pandas quantiles
(computed on the sorted order statistics, counted over the column). -/
def iqr_anomalies (values : List ℚ) : ℕ :=
  let sorted := List.insertionSort (fun a b : ℚ => a ≤ b) values
  (values.filter (iqrFlag (iqrLower sorted) (iqrUpper sorted))).length

/-- Embeds the loop body of lines 320-341 for one column: `None` for a
skipped column (fewer than 5 non-missing values, the `continue` at line 323),
otherwise its `anomalies[column]` entry. -/
def statColumnEntry (p : String × List (Option ℚ)) : Option (String × ColDetail) :=
  let values := p.2.filterMap id
  if values.length < 5 then none
  else some (p.1, ColDetail.mk (zscore_anomalies values) (iqr_anomalies values) values.length)

/-- Embeds `statistical_anomaly_detection` (lines 316-353).  A column is a
list of optional cells (`none` = missing); `dropna` keeps the `some`s. -/
def statistical_anomaly_detection (data : List (String × List (Option ℚ))) : StatResult :=
  let anomalies := data.filterMap statColumnEntry
  let total_anomalies := (anomalies.map (fun q => q.2.z_score_anomalies + q.2.iqr_anomalies)).sum
  let total_points := (anomalies.map (fun q => q.2.total_points)).sum
  { column_details := anomalies
    total_anomalies := total_anomalies
    total_points := total_points
    anomaly_rate := (total_anomalies : ℚ) / ((max total_points 1 : ℕ) : ℚ) }

/-- Output of `train_isolation_forest` (lines 193-198) as consumed downstream;
the fitted model object and `score_stats` are never read by the ensemble or
the insight generator and are omitted.  `anomaly_ratio` and the importance
values are produced by the external IsolationForest backend. -/
structure IsoResult where
  anomaly_ratio : ℚ
  feature_importance : List (String × ℚ)
deriving DecidableEq, Repr

/-- Output of `train_lstm_autoencoder` (lines 244-249) as consumed downstream;
the model object is omitted.  The loss pair and threshold are produced by the
external keras training backend. -/
structure LstmResult where
  training_loss : ℚ
  validation_loss : ℚ
  threshold : ℚ
deriving DecidableEq, Repr

/-- The `results['models']` dict built by `detect_anomalies` (lines 292-303),
with its insertion order `isolation_forest`, `lstm_autoencoder`,
`statistical`; absent scorers are `none`. -/
structure Models where
  isolation_forest : Option IsoResult
  lstm_autoencoder : Option LstmResult
  statistical : Option StatResult
deriving DecidableEq, Repr

/-- Embeds `len(models)`: the number of scorers present in the dict. -/
def Models.count (m : Models) : ℕ :=
  (if m.isolation_forest.isSome then 1 else 0) +
  (if m.lstm_autoencoder.isSome then 1 else 0) +
  (if m.statistical.isSome then 1 else 0)

/-- Embeds the loop body of `ensemble_anomaly_detection` (lines 360-380): the
`confidences` and `anomaly_indicators` lists are appended to in lockstep, one
pair per contributing scorer, iterating the dict in its insertion order.  The
`lstm_autoencoder` branch contributes only when both losses are positive. -/
def ensemble_contributions (models : Models) : List (ℚ × Bool) :=
  (match models.isolation_forest with
   | some results =>
       [(min (results.anomaly_ratio * 10) 1.0, decide (results.anomaly_ratio > 0.15))]
   | none => [])
  ++
  (match models.lstm_autoencoder with
   | some results =>
       let train_loss := results.training_loss
       let val_loss := results.validation_loss
       if train_loss > 0 ∧ val_loss > 0 then
         let loss_ratio := val_loss / train_loss
         let confidence : ℚ := if loss_ratio > 1 then min ((loss_ratio - 1) * 2) 1.0 else 0
         [(max confidence 0, decide (loss_ratio > 1.5))]
       else []
   | none => [])
  ++
  (match models.statistical with
   | some results =>
       [(min (results.anomaly_rate * 5) 1.0, decide (results.anomaly_rate > 0.1))]
   | none => [])

/-- The `ensemble` dict returned at lines 389-395. -/
structure EnsembleResult where
  confidence : ℚ
  anomaly_detected : Bool
  model_count : ℕ
  anomaly_votes : ℕ
  individual_confidences : List ℚ
deriving DecidableEq, Repr

/-- Embeds `ensemble_anomaly_detection` (lines 355-395): mean of the
contributed confidences (0 when none contributed), vote count, and the
majority rule `anomaly_votes >= len(anomaly_indicators) / 2` with Python
float division. -/
def ensemble_anomaly_detection (models : Models) : EnsembleResult :=
  let confidences := (ensemble_contributions models).map Prod.fst
  let anomaly_indicators := (ensemble_contributions models).map Prod.snd
  let ensemble_confidence : ℚ :=
    if confidences.isEmpty then 0 else confidences.sum / (confidences.length : ℚ)
  let anomaly_votes := (anomaly_indicators.filter id).length
  let anomaly_detected := decide ((anomaly_votes : ℚ) ≥ (anomaly_indicators.length : ℚ) / 2)
  { confidence := ensemble_confidence
    anomaly_detected := anomaly_detected
    model_count := models.count
    anomaly_votes := anomaly_votes
    individual_confidences := confidences }

/-- Embeds `sequence_length = min(10, len(X) // 10)` (line 209). -/
def sequence_length_of (nRows : ℕ) : ℕ := min 10 (nRows / 10)

/-- Number of windows built by `_create_sequences` (lines 251-256):
`len(range(n - sequence_length + 1))`, i.e. `max (n - sequence_length + 1) 0`,
which in `ℕ` is `n + 1 - sequence_length`. -/
def create_sequences_length (n sequence_length : ℕ) : ℕ := n + 1 - sequence_length

/-- Embeds the guard structure of `train_lstm_autoencoder` (lines 200-214):
`None` when TensorFlow is unavailable or no window can be formed; otherwise
the result produced by the external training backend (passed as `outcome`). -/
def train_lstm_autoencoder (tensorflow_available : Bool) (nRows : ℕ)
    (outcome : LstmResult) : Option LstmResult :=
  if !tensorflow_available then none
  else
    let sequence_length := sequence_length_of nRows
    if create_sequences_length nRows sequence_length = 0 then none
    else some outcome

/-- The fields of the `results` dict of `detect_anomalies` (lines 284-312)
read downstream: `data_points`/`features` (line 286-287), the models dict,
the ensemble verdict, and the threshold-gated flag of line 311. -/
structure PipelineResults where
  data_points : ℕ
  features : ℕ
  models : Models
  ensemble : EnsembleResult
  anomalies_detected : Bool
  confidence : ℚ
deriving DecidableEq, Repr

/-- Embeds lines 305-312 of `detect_anomalies`: the ensemble fusion and the
final `anomalies_detected = anomaly_confidence >= self.confidence_threshold`
flag, given the already-built models dict. -/
def detect_anomalies_decision (models : Models) (confidence_threshold : ℚ)
    (data_points features : ℕ) : PipelineResults :=
  let ensemble_results := ensemble_anomaly_detection models
  let anomaly_confidence := ensemble_results.confidence
  { data_points := data_points
    features := features
    models := models
    ensemble := ensemble_results
    anomalies_detected := decide (anomaly_confidence ≥ confidence_threshold)
    confidence := anomaly_confidence }

/-- Configuration options read by `detect_anomalies` (lines 48-50). -/
structure Config where
  model_type : String
  confidence_threshold : ℚ
deriving DecidableEq, Repr

/-- Result of `detect_anomalies`: either the early no-data dict of line 278
(which carries no scorer detail at all) or the full results dict. -/
inductive DetectOutcome where
  | noData : Bool → String → DetectOutcome
  | report : PipelineResults → DetectOutcome
deriving DecidableEq, Repr

/-- Value of a cell after `data[self.feature_columns].fillna(0)` (line 281):
missing values become 0; infinities cannot occur in engineered feature
columns (see the finiteness theorem) so their clause is unreachable. -/
def PdVal.toFilledQ : PdVal → ℚ
  | .val q => q
  | _ => 0

/-- Embeds `detect_anomalies` (lines 275-314).  The empty-data early return is
line 277-278.  Otherwise the models dict is built per lines 292-303:
IsolationForest when `model_type` selects it (its numeric outcome `isoOutcome`
comes from the external backend), the LSTM when selected and available and
its guards pass, and the statistical scorer always, applied to the feature
table with `fillna(0)`. -/
def detect_anomalies (cfg : Config) (tensorflow_available : Bool)
    (sqrtFn : ℚ → ℚ) (isoOutcome : IsoResult) (lstmOutcome : LstmResult)
    (records : List RawRecord) : DetectOutcome :=
  if records.isEmpty then DetectOutcome.noData false "No data available"
  else
    let feature_data : List (String × List (Option ℚ)) :=
      (featureTable sqrtFn records).map (fun p => (p.1, p.2.map (fun x => some x.toFilledQ)))
    let models : Models :=
      { isolation_forest :=
          if cfg.model_type = "isolation_forest" ∨ cfg.model_type = "all" then some isoOutcome
          else none
        lstm_autoencoder :=
          if (cfg.model_type = "lstm" ∨ cfg.model_type = "all") ∧ tensorflow_available then
            train_lstm_autoencoder tensorflow_available records.length lstmOutcome
          else none
        statistical := some (statistical_anomaly_detection feature_data) }
    DetectOutcome.report
      (detect_anomalies_decision models cfg.confidence_threshold records.length
        (feature_columns records).length)

/-- One element of `insights['affected_metrics']` (lines 445-449, 456-460):
a statistical entry carries the combined anomaly count, an isolation-forest
entry carries the importance value; `detection_method` is the constructor. -/
inductive AffectedMetric where
  | statistical : String → ℕ → AffectedMetric
  | isolation_forest : String → ℚ → AffectedMetric
deriving DecidableEq, Repr

/-- Magnitude annotation of an affected-metric entry. -/
def AffectedMetric.magnitude : AffectedMetric → ℚ
  | .statistical _ n => n
  | .isolation_forest _ q => q

/-- True for entries contributed by the statistical scorer. -/
def AffectedMetric.isStatEntry : AffectedMetric → Bool
  | .statistical _ _ => true
  | .isolation_forest _ _ => false

/-- Descending-by-importance order used by line 453. -/
def byImportanceDesc (a b : String × ℚ) : Prop := b.2 ≤ a.2

instance : DecidableRel byImportanceDesc :=
  fun a b => inferInstanceAs (Decidable (b.2 ≤ a.2))

instance : IsTotal (String × ℚ) byImportanceDesc :=
  ⟨fun a b => le_total b.2 a.2⟩

instance : IsTrans (String × ℚ) byImportanceDesc :=
  ⟨fun _ _ _ h1 h2 => le_trans h2 h1⟩

/-- Embeds line 453: `sorted(feature_importance.items(), key=lambda x: x[1],
reverse=True)[:5]` — a stable descending sort by importance, then the first
five.  Insertion sort with this relation is stable, like Python `sorted`. -/
def topFeatures (feature_importance : List (String × ℚ)) : List (String × ℚ) :=
  (List.insertionSort byImportanceDesc feature_importance).take 5

/-- Embeds lines 451-460: the isolation-forest contribution to
`affected_metrics` (top-5 features by importance, kept when importance
exceeds 0.5). -/
def isoAffectedEntries (iso : IsoResult) : List AffectedMetric :=
  (topFeatures iso.feature_importance).filterMap (fun p =>
    if p.2 > 0.5 then some (AffectedMetric.isolation_forest p.1 p.2) else none)

/-- Embeds lines 441-449: the statistical contribution to `affected_metrics`
(every column whose combined z-score + IQR count is nonzero, in column
iteration order, annotated with that count). -/
def statAffectedEntries (st : StatResult) : List AffectedMetric :=
  st.column_details.filterMap (fun p =>
    let total_anomalies := p.2.z_score_anomalies + p.2.iqr_anomalies
    if total_anomalies > 0 then some (AffectedMetric.statistical p.1 total_anomalies) else none)

/-- The `insights` dict built by `generate_insights` (lines 399-404). -/
structure Insights where
  summary : String
  recommendations : List String
  severity : String
  affected_metrics : List AffectedMetric
deriving DecidableEq, Repr

/-- Embeds lines 409-437: severity, summary and recommendations selected from
the consumed `anomalies_detected` flag and the confidence value. -/
def insightHeader (anomalies_detected : Bool) (confidence : ℚ) :
    String × String × List String :=
  if anomalies_detected then
    if confidence ≥ 0.9 then
      ("critical", "Critical anomalies detected with high confidence",
       ["Investigate immediately", "Check recent deployment changes",
        "Monitor system resources", "Consider rollback if necessary"])
    else if confidence ≥ 0.7 then
      ("high", "Significant anomalies detected",
       ["Investigate within 1 hour", "Check workflow performance metrics",
        "Review recent configuration changes"])
    else
      ("medium", "Potential anomalies detected",
       ["Monitor trends over next few runs", "Review metrics for patterns",
        "Consider tuning anomaly detection thresholds"])
  else
    ("low", "No significant anomalies detected", ["Continue normal monitoring"])

/-- Embeds `generate_insights` (lines 397-462).  It reads
`results.get('confidence', 0)` and `results.get('anomalies_detected', False)`
— the threshold-gated flag set at line 311 — and iterates
`results['models']` in its insertion order (`isolation_forest` first, then
`lstm_autoencoder` which contributes nothing, then `statistical`), so the
isolation-forest entries of `affected_metrics` precede the statistical ones. -/
def generate_insights (results : PipelineResults) : Insights :=
  let confidence := results.confidence
  let anomalies_detected := results.anomalies_detected
  let header := insightHeader anomalies_detected confidence
  let affected_metrics :=
    (match results.models.isolation_forest with
     | some iso => isoAffectedEntries iso
     | none => [])
    ++
    (match results.models.statistical with
     | some st => statAffectedEntries st
     | none => [])
  { summary := header.2.1
    recommendations := header.2.2
    severity := header.1
    affected_metrics := affected_metrics }

/-- Spec formula (sect. 4.5): density confidence and local vote. -/
def specDensityContribution (r : IsoResult) : ℚ × Bool :=
  (min (r.anomaly_ratio * 10) 1.0, decide (0.15 < r.anomaly_ratio))

/-- Spec formula (sect. 4.5): statistical confidence and local vote. -/
def specStatisticalContribution (s : StatResult) : ℚ × Bool :=
  (min (s.anomaly_rate * 5) 1.0, decide (0.1 < s.anomaly_rate))

/-- Spec formula (sect. 4.5): the sequence scorer contributes only when both
losses are positive, with confidence `max (min ((r - 1) * 2) 1.0) 0` when the
loss ratio `r` exceeds 1 and 0 otherwise, and local vote `r > 1.5`. -/
def specSequenceContribution (l : LstmResult) : Option (ℚ × Bool) :=
  if 0 < l.training_loss ∧ 0 < l.validation_loss then
    let r := l.validation_loss / l.training_loss
    some (if 1 < r then max (min ((r - 1) * 2) 1.0) 0 else 0, decide (1.5 < r))
  else none

/-- Contribution list demanded by the spec: one `(confidence, vote)` pair per
contributing scorer, non-contributing scorers excluded. -/
def specContributions (m : Models) : List (ℚ × Bool) :=
  (m.isolation_forest.map specDensityContribution).toList
  ++ (m.lstm_autoencoder.bind specSequenceContribution).toList
  ++ (m.statistical.map specStatisticalContribution).toList

/-- Order predicate asserted by the affected-metrics claim: every
statistical-source entry precedes every isolation-forest-source entry. -/
def statEntriesFirst (l : List AffectedMetric) : Bool :=
  (l.dropWhile AffectedMetric.isStatEntry).all (fun e => !e.isStatEntry)

/-- Concrete statistical scorer result: one column of 25 points, 1 z-score
outlier and 2 IQR outliers, hence `anomaly_rate = 3/25 = 0.12`. -/
def sampleStat : StatResult :=
  { column_details := [("value", ColDetail.mk 1 2 25)]
    total_anomalies := 3
    total_points := 25
    anomaly_rate := 3 / 25 }

/-- Concrete models dict with all three scorers contributing. -/
def sampleModels : Models :=
  { isolation_forest := some { anomaly_ratio := 1 / 5, feature_importance := [("value", 9 / 10)] }
    lstm_autoencoder := some { training_loss := 1, validation_loss := 2, threshold := 0 }
    statistical := some sampleStat }

/-- Concrete models dict where only the statistical scorer is present. -/
def statOnlyModels : Models :=
  { isolation_forest := none, lstm_autoencoder := none, statistical := some sampleStat }

/-- Concrete models dict with the density and statistical scorers present,
both pushing affected-metric entries. -/
def mixedModels : Models :=
  { isolation_forest := some { anomaly_ratio := 1 / 5, feature_importance := [("value_ma_5", 9 / 10)] }
    lstm_autoencoder := none
    statistical := some sampleStat }

/-- Pipeline results produced from `mixedModels` at the default threshold. -/
def mixedResults : PipelineResults :=
  detect_anomalies_decision mixedModels (17 / 20) 25 9

/-- Concrete raw records used to instantiate the feature-builder theorems. -/
def sampleRecords : List RawRecord :=
  [{ ts_hour := 0, ts_dow := 5, metric_name := "m", source := "prometheus", value := 2 },
   { ts_hour := 1, ts_dow := 2, metric_name := "m", source := "workflow", value := 0 },
   { ts_hour := 2, ts_dow := 3, metric_name := "k", source := "prometheus", value := 4 }]

/-- Concrete one-row input used to instantiate the schema theorems. -/
def oneRec : RawRecord :=
  { ts_hour := 0, ts_dow := 5, metric_name := "m", source := "prometheus", value := 2 }

/-! ## Helper lemmas -/

/-- The lockstep contribution list built by the code equals the contribution
list demanded by the spec, scorer by scorer. -/
theorem ensemble_contributions_eq_spec (m : Models) :
    ensemble_contributions m = specContributions m := by
  rcases m with ⟨iso, lstm, stat⟩
  unfold ensemble_contributions specContributions
  congr 1
  congr 1
  · cases iso <;> rfl
  · cases lstm with
    | none => rfl
    | some l =>
        show (if l.training_loss > 0 ∧ l.validation_loss > 0 then
                [((max (if l.validation_loss / l.training_loss > 1 then
                        min ((l.validation_loss / l.training_loss - 1) * 2) 1.0 else 0) 0 : ℚ),
                  decide (l.validation_loss / l.training_loss > 1.5))]
              else []) = ((some l).bind specSequenceContribution).toList
        by_cases hl : l.training_loss > 0 ∧ l.validation_loss > 0
        · rw [if_pos hl]
          show _ = (specSequenceContribution l).toList
          unfold specSequenceContribution
          rw [if_pos hl]
          show _ = (some ((if 1 < l.validation_loss / l.training_loss then
                      max (min ((l.validation_loss / l.training_loss - 1) * 2) 1.0) 0 else 0 : ℚ),
                    decide (1.5 < l.validation_loss / l.training_loss))).toList
          by_cases hr : 1 < l.validation_loss / l.training_loss
          · rw [if_pos hr, if_pos hr]
            rfl
          · rw [if_neg hr, if_neg hr]
            simp
        · rw [if_neg hl]
          show _ = (specSequenceContribution l).toList
          unfold specSequenceContribution
          rw [if_neg hl]
          rfl
  · cases stat <;> rfl

theorem half_vote_iff (votes n : ℕ) :
    ((votes : ℚ) ≥ (n : ℚ) / 2) ↔ n ≤ 2 * votes := by
  rw [ge_iff_le, div_le_iff₀ (by norm_num : (0 : ℚ) < 2)]
  norm_cast
  omega

/-- C1: for every set of available scorer results, the Ensemble Decision
Engine computes exactly the spec formulas — per-scorer confidences and local
votes as in `specContributions` (density `min(ratio*10, 1.0)` with vote
`ratio > 0.15`; statistical `min(rate*5, 1.0)` with vote `rate > 0.10`;
sequence contributing only for positive losses, with the clamped
loss-ratio confidence and vote `ratio > 1.5`), the ensemble confidence being
the arithmetic mean of exactly the contributed confidences, and
`anomaly_detected` holding iff twice the number of true local votes is at
least the number of contributing scorers (ties detected). -/
theorem C1_ensemble_computes_spec_formulas (m : Models) :
    (ensemble_anomaly_detection m).individual_confidences
        = (specContributions m).map Prod.fst ∧
    (specContributions m ≠ [] →
      (ensemble_anomaly_detection m).confidence
        = ((specContributions m).map Prod.fst).sum / ((specContributions m).length : ℚ)) ∧
    (ensemble_anomaly_detection m).anomaly_votes
        = ((specContributions m).filter Prod.snd).length ∧
    ((ensemble_anomaly_detection m).anomaly_detected = true ↔
      (specContributions m).length ≤ 2 * (ensemble_anomaly_detection m).anomaly_votes) := by
  have hc := ensemble_contributions_eq_spec m
  refine ⟨?_, ?_, ?_, ?_⟩
  · show (ensemble_contributions m).map Prod.fst = _
    rw [hc]
  · intro hne
    show (if ((ensemble_contributions m).map Prod.fst).isEmpty then (0 : ℚ)
          else ((ensemble_contributions m).map Prod.fst).sum
               / (((ensemble_contributions m).map Prod.fst).length : ℚ)) = _
    rw [hc]
    rw [if_neg (by simpa [List.isEmpty_iff] using hne)]
    rw [List.length_map]
  · show (((ensemble_contributions m).map Prod.snd).filter id).length = _
    rw [hc, List.filter_map, List.length_map]
    rfl
  · have hv : (ensemble_anomaly_detection m).anomaly_votes
        = ((specContributions m).filter Prod.snd).length := by
      show (((ensemble_contributions m).map Prod.snd).filter id).length = _
      rw [hc, List.filter_map, List.length_map]
      rfl
    rw [hv]
    show (decide ((((((ensemble_contributions m).map Prod.snd).filter id).length : ℕ) : ℚ)
          ≥ (((ensemble_contributions m).map Prod.snd).length : ℚ) / 2) = true) ↔ _
    rw [decide_eq_true_iff, half_vote_iff]
    have hv2 : (((ensemble_contributions m).map Prod.snd).filter id).length
        = ((specContributions m).filter Prod.snd).length := by
      rw [hc, List.filter_map, List.length_map]
      rfl
    rw [hv2, hc, List.length_map]

/-- Witness for C1 at a concrete models dict with all three scorers
contributing. -/
theorem C1_witness :
    specContributions sampleModels ≠ [] ∧
    (ensemble_anomaly_detection sampleModels).confidence
      = ((specContributions sampleModels).map Prod.fst).sum
        / ((specContributions sampleModels).length : ℚ) :=
  ⟨by decide, (C1_ensemble_computes_spec_formulas sampleModels).2.1 (by decide)⟩

/-- C2 counterexample: at a concrete run where only the statistical scorer
contributes with `anomaly_rate = 0.12`, the ensemble majority vote says
anomaly (its sole voter votes true), yet the flag consumed by the Insight
Generator is `confidence >= confidence_threshold`, which is false at the
default threshold 0.85 (the confidence is 0.6) and makes the severity "low";
lowering only the configured threshold to 0.5 — identical scorer results,
identical ensemble verdict — flips the severity to "medium".  So the consumed
verdict is not the Ensemble Verdict's `anomaly_detected`, and the report does
depend on the external `confidence_threshold`. -/
theorem C2_counterexample :
    (ensemble_anomaly_detection statOnlyModels).anomaly_detected = true ∧
    (detect_anomalies_decision statOnlyModels (17 / 20) 25 9).anomalies_detected = false ∧
    (generate_insights (detect_anomalies_decision statOnlyModels (17 / 20) 25 9)).severity
      = "low" ∧
    (generate_insights (detect_anomalies_decision statOnlyModels (1 / 2) 25 9)).severity
      = "medium" := by
  refine ⟨?_, ?_, ?_, ?_⟩ <;>
    norm_num [ensemble_anomaly_detection, ensemble_contributions, statOnlyModels, sampleStat,
      detect_anomalies_decision, generate_insights, insightHeader, ge_iff_le]

/-- C2 amended: the boolean verdict that the Insight Generator consumes is
the pipeline flag `ensemble confidence >= confidence_threshold` set at line
311 — not the Ensemble Verdict's majority-vote `anomaly_detected` field — so
the Insight Report depends on the ensemble output together with the
externally configured `confidence_threshold`, through exactly that flag. -/
theorem C2_amended_verdict_is_threshold_gate (m : Models) (threshold : ℚ) (dp nf : ℕ) :
    (detect_anomalies_decision m threshold dp nf).anomalies_detected
        = decide (threshold ≤ (ensemble_anomaly_detection m).confidence) ∧
    (generate_insights (detect_anomalies_decision m threshold dp nf)).severity
        = (if threshold ≤ (ensemble_anomaly_detection m).confidence then
             (if (0.9 : ℚ) ≤ (ensemble_anomaly_detection m).confidence then "critical"
              else if (0.7 : ℚ) ≤ (ensemble_anomaly_detection m).confidence then "high"
              else "medium")
           else "low") ∧
    (generate_insights (detect_anomalies_decision m threshold dp nf)).summary
        = (if threshold ≤ (ensemble_anomaly_detection m).confidence then
             (if (0.9 : ℚ) ≤ (ensemble_anomaly_detection m).confidence then
                "Critical anomalies detected with high confidence"
              else if (0.7 : ℚ) ≤ (ensemble_anomaly_detection m).confidence then
                "Significant anomalies detected"
              else "Potential anomalies detected")
           else "No significant anomalies detected") := by
  refine ⟨rfl, ?_, ?_⟩ <;>
  · by_cases h1 : threshold ≤ (ensemble_anomaly_detection m).confidence <;>
      by_cases h9 : (0.9 : ℚ) ≤ (ensemble_anomaly_detection m).confidence <;>
        by_cases h7 : (0.7 : ℚ) ≤ (ensemble_anomaly_detection m).confidence <;>
          simp [generate_insights, detect_anomalies_decision, insightHeader, h1, h9, h7,
            ge_iff_le]

theorem filterMap_ite_eq_map_filter {α β : Type} (f : α → β) (c : α → Prop)
    [DecidablePred c] (l : List α) :
    l.filterMap (fun a => if c a then some (f a) else none)
      = (l.filter (fun a => decide (c a))).map f := by
  induction l with
  | nil => rfl
  | cons a t ih =>
      by_cases h : c a
      · simp [List.filterMap_cons, List.filter_cons, h, ih]
      · simp [List.filterMap_cons, List.filter_cons, h, ih]

/-- C3 amended: the affected-metrics list is the isolation-forest (density)
entries followed by the statistical entries — source (b) precedes source (a),
the reverse of the claimed order, because the models dict is iterated in its
insertion order with `isolation_forest` first.  Within the sources the claim
holds: the density part is the top-5 features by importance, sorted
descending, all exceeding 0.5; the statistical part is every column with
nonzero combined count, in column order, annotated with that count. -/
theorem C3_affected_metrics_order_corrected (results : PipelineResults) :
    ((generate_insights results).affected_metrics
        = (match results.models.isolation_forest with
           | some iso => isoAffectedEntries iso
           | none => [])
          ++ (match results.models.statistical with
              | some st => statAffectedEntries st
              | none => [])) ∧
    (∀ iso, results.models.isolation_forest = some iso →
        (isoAffectedEntries iso).length ≤ 5 ∧
        List.Sorted (fun a b : ℚ => b ≤ a)
          ((isoAffectedEntries iso).map AffectedMetric.magnitude) ∧
        ∀ e ∈ isoAffectedEntries iso, (0.5 : ℚ) < e.magnitude) ∧
    (∀ st, results.models.statistical = some st →
        statAffectedEntries st
          = (st.column_details.filter
              (fun p => decide (p.2.z_score_anomalies + p.2.iqr_anomalies > 0))).map
              (fun p => AffectedMetric.statistical p.1
                (p.2.z_score_anomalies + p.2.iqr_anomalies))) := by
  refine ⟨rfl, ?_, ?_⟩
  · intro iso _
    have hentries : isoAffectedEntries iso
        = ((topFeatures iso.feature_importance).filter
            (fun p => decide (p.2 > 0.5))).map
            (fun p => AffectedMetric.isolation_forest p.1 p.2) := by
      unfold isoAffectedEntries
      exact filterMap_ite_eq_map_filter
        (fun p : String × ℚ => AffectedMetric.isolation_forest p.1 p.2)
        (fun p : String × ℚ => p.2 > 0.5) _
    refine ⟨?_, ?_, ?_⟩
    · calc (isoAffectedEntries iso).length
          ≤ (topFeatures iso.feature_importance).length := by
            unfold isoAffectedEntries
            exact List.length_filterMap_le _ _
        _ ≤ 5 := by
            unfold topFeatures
            exact List.length_take_le 5 _
    · have hmap : (isoAffectedEntries iso).map AffectedMetric.magnitude
          = ((topFeatures iso.feature_importance).filter
              (fun p => decide (p.2 > 0.5))).map (fun p => p.2) := by
        rw [hentries, List.map_map]
        rfl
      rw [hmap]
      have hsorted : List.Pairwise byImportanceDesc
          (List.insertionSort byImportanceDesc iso.feature_importance) :=
        List.sorted_insertionSort byImportanceDesc _
      have htake : List.Pairwise byImportanceDesc (topFeatures iso.feature_importance) :=
        List.Pairwise.sublist (List.take_sublist 5 _) hsorted
      have hfil : List.Pairwise byImportanceDesc
          ((topFeatures iso.feature_importance).filter (fun p => decide (p.2 > 0.5))) :=
        List.Pairwise.sublist (List.filter_sublist _) htake
      exact List.pairwise_map.mpr hfil
    · intro e he
      rw [hentries] at he
      rcases List.mem_map.mp he with ⟨p, hp, rfl⟩
      have h05 := of_decide_eq_true (List.mem_filter.mp hp).2
      simpa [AffectedMetric.magnitude] using h05
  · intro st _
    show st.column_details.filterMap
        (fun p => if p.2.z_score_anomalies + p.2.iqr_anomalies > 0 then
          some (AffectedMetric.statistical p.1 (p.2.z_score_anomalies + p.2.iqr_anomalies))
          else none) = _
    exact filterMap_ite_eq_map_filter
      (fun p : String × ColDetail =>
        AffectedMetric.statistical p.1 (p.2.z_score_anomalies + p.2.iqr_anomalies))
      (fun p : String × ColDetail => p.2.z_score_anomalies + p.2.iqr_anomalies > 0) _

/-- Witness for the amended C3 at a concrete run with both sources
contributing. -/
theorem C3_witness :
    ((generate_insights mixedResults).affected_metrics
        = (match mixedResults.models.isolation_forest with
           | some iso => isoAffectedEntries iso
           | none => [])
          ++ (match mixedResults.models.statistical with
              | some st => statAffectedEntries st
              | none => [])) ∧
    (isoAffectedEntries
        { anomaly_ratio := 1 / 5, feature_importance := [("value_ma_5", 9 / 10)] }).length ≤ 5 :=
  ⟨(C3_affected_metrics_order_corrected mixedResults).1,
   ((C3_affected_metrics_order_corrected mixedResults).2.1 _ rfl).1⟩

/-- C3 counterexample: at a concrete run where both sources contribute, the
affected-metrics list begins with the isolation-forest (density) entry and
the statistical entry comes second, so the claimed "source (a) before
source (b)" order is violated. -/
theorem C3_counterexample :
    statEntriesFirst ((generate_insights mixedResults).affected_metrics) = false ∧
    (generate_insights mixedResults).affected_metrics
      = [AffectedMetric.isolation_forest "value_ma_5" (9 / 10),
         AffectedMetric.statistical "value" 3] := by
  have haff : (generate_insights mixedResults).affected_metrics
      = [AffectedMetric.isolation_forest "value_ma_5" (9 / 10),
         AffectedMetric.statistical "value" 3] := by
    norm_num [generate_insights, mixedResults, detect_anomalies_decision, mixedModels,
      sampleStat, isoAffectedEntries, statAffectedEntries, topFeatures,
      List.insertionSort, List.orderedInsert, List.filterMap_cons]
  refine ⟨?_, haff⟩
  rw [haff]
  rfl

/-- C4: the sequence scorer produces a result only when TensorFlow is
available and at least one sliding window of length `min(10, n // 10)` can be
formed; when either condition fails it returns `None`, the scorer is then
absent from the models dict, the Ensemble Decision Engine computes its
confidence and votes from the remaining scorers alone (no zero-confidence
placeholder appears in the contribution list), and a run without the backend
still completes with a full report. -/
theorem C4_sequence_scorer_optional (tf : Bool) (n : ℕ) (outcome : LstmResult) :
    ((train_lstm_autoencoder tf n outcome).isSome →
        tf = true ∧ 1 ≤ create_sequences_length n (sequence_length_of n)) ∧
    ((tf = false ∨ create_sequences_length n (sequence_length_of n) = 0) →
        train_lstm_autoencoder tf n outcome = none) ∧
    (∀ (r : IsoResult) (s : StatResult),
        (ensemble_anomaly_detection (Models.mk (some r) none (some s))).individual_confidences
          = [min (r.anomaly_ratio * 10) 1.0, min (s.anomaly_rate * 5) 1.0] ∧
        (ensemble_anomaly_detection (Models.mk (some r) none (some s))).confidence
          = (min (r.anomaly_ratio * 10) 1.0 + min (s.anomaly_rate * 5) 1.0) / 2) ∧
    (∀ (cfg : Config) (sqrtFn : ℚ → ℚ) (iso : IsoResult) (records : List RawRecord),
        records ≠ [] →
        ∃ pr, detect_anomalies cfg false sqrtFn iso outcome records = DetectOutcome.report pr ∧
              pr.models.lstm_autoencoder = none) := by
  refine ⟨?_, ?_, ?_, ?_⟩
  · intro h
    cases tf
    · simp [train_lstm_autoencoder] at h
    · refine ⟨rfl, ?_⟩
      by_cases hc : create_sequences_length n (sequence_length_of n) = 0
      · simp [train_lstm_autoencoder, hc] at h
      · omega
  · rintro (rfl | hc)
    · rfl
    · cases tf
      · rfl
      · simp [train_lstm_autoencoder, hc]
  · intro r s
    refine ⟨rfl, ?_⟩
    show (if ([min (r.anomaly_ratio * 10) 1.0, min (s.anomaly_rate * 5) 1.0] : List ℚ).isEmpty
          then (0 : ℚ)
          else (min (r.anomaly_ratio * 10) 1.0 + (min (s.anomaly_rate * 5) 1.0 + 0))
               / ((2 : ℕ) : ℚ)) = _
    norm_num
  · intro cfg sqrtFn iso records hne
    have hemp : records.isEmpty = false := by
      simpa [List.isEmpty_iff] using hne
    unfold detect_anomalies
    rw [hemp]
    simp only [Bool.false_eq_true, if_false]
    exact ⟨_, rfl, by simp [detect_anomalies_decision]⟩

/-- Witness for C4: the guards at concrete inputs — a successful training run
(TensorFlow present, 100 rows), an absent backend yielding `None`, the
two-scorer ensemble, and a full backend-free pipeline run. -/
theorem C4_witness :
    (true = true ∧ 1 ≤ create_sequences_length 100 (sequence_length_of 100)) ∧
    train_lstm_autoencoder false 100
        { training_loss := 1, validation_loss := 2, threshold := 0 } = none ∧
    (ensemble_anomaly_detection
        (Models.mk (some { anomaly_ratio := 1 / 5, feature_importance := [] }) none
          (some sampleStat))).individual_confidences
      = [min ((1 : ℚ) / 5 * 10) 1.0, min ((3 : ℚ) / 25 * 5) 1.0] ∧
    (∃ pr, detect_anomalies { model_type := "all", confidence_threshold := 17 / 20 } false id
        { anomaly_ratio := 1 / 5, feature_importance := [] }
        { training_loss := 1, validation_loss := 2, threshold := 0 }
        sampleRecords = DetectOutcome.report pr ∧ pr.models.lstm_autoencoder = none) :=
  ⟨(C4_sequence_scorer_optional true 100
      { training_loss := 1, validation_loss := 2, threshold := 0 }).1 rfl,
   (C4_sequence_scorer_optional false 100
      { training_loss := 1, validation_loss := 2, threshold := 0 }).2.1 (Or.inl rfl),
   ((C4_sequence_scorer_optional true 100
      { training_loss := 1, validation_loss := 2, threshold := 0 }).2.2.1
      { anomaly_ratio := 1 / 5, feature_importance := [] } sampleStat).1,
   (C4_sequence_scorer_optional true 100
      { training_loss := 1, validation_loss := 2, threshold := 0 }).2.2.2
      { model_type := "all", confidence_threshold := 17 / 20 } id
      { anomaly_ratio := 1 / 5, feature_importance := [] } sampleRecords (by decide)⟩

/-- C9: an empty dataset short-circuits the detection pipeline into the
clean no-data report — `anomalies_detected = false`, message
"No data available", and no scorer detail (the `noData` outcome carries
none) — rather than raising. -/
theorem C9_empty_dataset_clean_no_data (cfg : Config) (tf : Bool) (sqrtFn : ℚ → ℚ)
    (iso : IsoResult) (lo : LstmResult) :
    detect_anomalies cfg tf sqrtFn iso lo []
      = DetectOutcome.noData false "No data available" := rfl

theorem list_mean_bounds (l : List ℚ) (h0 : ∀ x ∈ l, 0 ≤ x) (h1 : ∀ x ∈ l, x ≤ 1)
    (hne : l ≠ []) :
    0 ≤ l.sum / (l.length : ℚ) ∧ l.sum / (l.length : ℚ) ≤ 1 := by
  have hlen : 0 < (l.length : ℚ) := by
    exact_mod_cast List.length_pos.mpr hne
  constructor
  · exact div_nonneg (List.sum_nonneg h0) (le_of_lt hlen)
  · rw [div_le_one hlen]
    calc l.sum ≤ l.length • (1 : ℚ) := List.sum_le_card_nsmul l 1 h1
      _ = (l.length : ℚ) := by simp

theorem ensemble_contribution_mem_bounds (m : Models)
    (hiso : ∀ r, m.isolation_forest = some r → 0 ≤ r.anomaly_ratio)
    (hstat : ∀ s, m.statistical = some s → 0 ≤ s.anomaly_rate) :
    ∀ p ∈ ensemble_contributions m, 0 ≤ p.1 ∧ p.1 ≤ 1 := by
  intro p hp
  rcases m with ⟨iso, lstm, stat⟩
  simp only [ensemble_contributions, List.mem_append] at hp
  rcases hp with (hp | hp) | hp
  · cases iso with
    | none => simp at hp
    | some r =>
        simp only [List.mem_singleton] at hp
        subst hp
        have hr := hiso r rfl
        refine ⟨le_min (by positivity) (by norm_num), ?_⟩
        calc min (r.anomaly_ratio * 10) 1.0 ≤ 1.0 := min_le_right _ _
          _ = 1 := by norm_num
  · cases lstm with
    | none => simp at hp
    | some l =>
        dsimp only at hp
        by_cases hl : l.training_loss > 0 ∧ l.validation_loss > 0
        · rw [if_pos hl] at hp
          simp only [List.mem_singleton] at hp
          subst hp
          refine ⟨le_max_right _ _, max_le ?_ (by norm_num)⟩
          by_cases hr1 : l.validation_loss / l.training_loss > 1
          · rw [if_pos hr1]
            calc min ((l.validation_loss / l.training_loss - 1) * 2) 1.0 ≤ 1.0 :=
                  min_le_right _ _
              _ = 1 := by norm_num
          · rw [if_neg hr1]
            norm_num
        · rw [if_neg hl] at hp
          simp at hp
  · cases stat with
    | none => simp at hp
    | some s =>
        simp only [List.mem_singleton] at hp
        subst hp
        have hs := hstat s rfl
        refine ⟨le_min (by positivity) (by norm_num), ?_⟩
        calc min (s.anomaly_rate * 5) 1.0 ≤ 1.0 := min_le_right _ _
          _ = 1 := by norm_num

/-- C8: whichever subset of scorers contributes — the scorers that do
contribute report a nonnegative anomaly ratio and rate, as the real backends
always do — the ensemble confidence lies in the closed interval [0, 1]. -/
theorem C8_ensemble_confidence_in_unit_interval (m : Models)
    (hiso : ∀ r, m.isolation_forest = some r → 0 ≤ r.anomaly_ratio)
    (hstat : ∀ s, m.statistical = some s → 0 ≤ s.anomaly_rate) :
    0 ≤ (ensemble_anomaly_detection m).confidence ∧
    (ensemble_anomaly_detection m).confidence ≤ 1 := by
  have hb := ensemble_contribution_mem_bounds m hiso hstat
  have h0 : ∀ x ∈ (ensemble_contributions m).map Prod.fst, 0 ≤ x := by
    intro x hx
    rcases List.mem_map.mp hx with ⟨p, hp, rfl⟩
    exact (hb p hp).1
  have h1 : ∀ x ∈ (ensemble_contributions m).map Prod.fst, x ≤ 1 := by
    intro x hx
    rcases List.mem_map.mp hx with ⟨p, hp, rfl⟩
    exact (hb p hp).2
  have hconf : (ensemble_anomaly_detection m).confidence
      = (if ((ensemble_contributions m).map Prod.fst).isEmpty then (0 : ℚ)
         else ((ensemble_contributions m).map Prod.fst).sum
              / (((ensemble_contributions m).map Prod.fst).length : ℚ)) := rfl
  rw [hconf]
  by_cases hne : (ensemble_contributions m).map Prod.fst = []
  · rw [hne]
    norm_num
  · rw [if_neg (by simpa [List.isEmpty_iff] using hne)]
    exact list_mean_bounds _ h0 h1 hne

/-- Witness for C8 at a concrete three-scorer models dict. -/
theorem C8_witness :
    0 ≤ (ensemble_anomaly_detection sampleModels).confidence ∧
    (ensemble_anomaly_detection sampleModels).confidence ≤ 1 :=
  C8_ensemble_confidence_in_unit_interval sampleModels
    (fun r hr => by cases hr; norm_num [sampleModels])
    (fun s hs => by cases hs; norm_num [sampleModels, sampleStat])

/-- C7: a numeric column with fewer than 5 non-missing values is skipped
entirely — inserting such a column anywhere into the input changes nothing,
so it is excluded from both the anomaly numerator and the points denominator
— and `anomaly_rate = total_anomalies / max(total_points, 1)` with a
denominator that is always at least 1, a nonnegative rate, and rate 0 when no
column qualifies. -/
theorem C7_statistical_skips_small_columns (pre post : List (String × List (Option ℚ)))
    (name : String) (col : List (Option ℚ))
    (h : (col.filterMap id).length < 5) :
    statistical_anomaly_detection (pre ++ (name, col) :: post)
        = statistical_anomaly_detection (pre ++ post) ∧
    (statistical_anomaly_detection (pre ++ post)).anomaly_rate
        = ((statistical_anomaly_detection (pre ++ post)).total_anomalies : ℚ)
          / ((max (statistical_anomaly_detection (pre ++ post)).total_points 1 : ℕ) : ℚ) ∧
    0 < max (statistical_anomaly_detection (pre ++ post)).total_points 1 ∧
    0 ≤ (statistical_anomaly_detection (pre ++ post)).anomaly_rate ∧
    ((statistical_anomaly_detection (pre ++ post)).column_details = [] →
        (statistical_anomaly_detection (pre ++ post)).anomaly_rate = 0) := by
  have hnone : statColumnEntry (name, col) = none := by
    simp [statColumnEntry, h]
  refine ⟨?_, rfl, ?_, ?_, ?_⟩
  · have hlist : (pre ++ (name, col) :: post).filterMap statColumnEntry
        = (pre ++ post).filterMap statColumnEntry := by
      simp [List.filterMap_append, List.filterMap_cons, hnone]
    simp only [statistical_anomaly_detection, hlist]
  · exact lt_of_lt_of_le one_pos (le_max_right _ _)
  · exact div_nonneg (Nat.cast_nonneg _) (Nat.cast_nonneg _)
  · intro h0
    have hnil : (pre ++ post).filterMap statColumnEntry = [] := h0
    have htot : (statistical_anomaly_detection (pre ++ post)).total_anomalies = 0 := by
      show (((pre ++ post).filterMap statColumnEntry).map
          (fun q => q.2.z_score_anomalies + q.2.iqr_anomalies)).sum = 0
      rw [hnil]
      rfl
    have hrate : (statistical_anomaly_detection (pre ++ post)).anomaly_rate
        = ((statistical_anomaly_detection (pre ++ post)).total_anomalies : ℚ)
          / ((max (statistical_anomaly_detection (pre ++ post)).total_points 1 : ℕ) : ℚ) := rfl
    rw [hrate, htot]
    simp

/-- Witness for C7: a 5-point column is kept, an inserted 1-point column
changes nothing. -/
theorem C7_witness :
    statistical_anomaly_detection
        ([("a", [some 1, some 1, some 1, some 1, some 1])] ++ ("b", [some 1]) :: [])
      = statistical_anomaly_detection
        ([("a", [some 1, some 1, some 1, some 1, some 1])] ++ []) ∧
    0 < max (statistical_anomaly_detection
        ([("a", [some 1, some 1, some 1, some 1, some 1])] ++ [])).total_points 1 :=
  ⟨(C7_statistical_skips_small_columns [("a", [some 1, some 1, some 1, some 1, some 1])] []
      "b" [some 1] (by decide)).1,
   (C7_statistical_skips_small_columns [("a", [some 1, some 1, some 1, some 1, some 1])] []
      "b" [some 1] (by decide)).2.2.1⟩

theorem fillna_replace_is_val (x : PdVal) :
    ∃ q, x.fillna0.replaceInf0 = PdVal.val q := by
  cases x <;> exact ⟨_, rfl⟩

theorem head?_range_map {α : Type} (f : ℕ → α) (n : ℕ) (hn : 0 < n) :
    ((List.range n).map f).head? = some (f 0) := by
  cases n with
  | zero => omega
  | succ k =>
      rw [List.range_succ_eq_map]
      rfl

theorem mem_map_val {α : Type} (g : α → ℚ) (l : List α) :
    ∀ x ∈ l.map (fun a => PdVal.val (g a)), ∃ q, x = PdVal.val q := by
  intro x hx
  rcases List.mem_map.mp hx with ⟨a, _, rfl⟩
  exact ⟨_, rfl⟩

theorem mem_rollingMean_is_val (values : List ℚ) (w : ℕ) :
    ∀ x ∈ rollingMean values w, ∃ q, x = PdVal.val q := by
  intro x hx
  rcases List.mem_map.mp hx with ⟨i, _, rfl⟩
  exact ⟨_, rfl⟩

theorem mem_rollingStd_fillna_is_val (sqrtFn : ℚ → ℚ) (values : List ℚ) (w : ℕ) :
    ∀ x ∈ (rollingStd sqrtFn values w).map PdVal.fillna0, ∃ q, x = PdVal.val q := by
  intro x hx
  rcases List.mem_map.mp hx with ⟨y, hy, rfl⟩
  rcases List.mem_map.mp hy with ⟨i, _, rfl⟩
  show ∃ q, (if (windowSlice values w i).length < 2 then PdVal.nan
      else PdVal.val (sqrtFn (sampleVariance (windowSlice values w i)))).fillna0
      = PdVal.val q
  by_cases hwin : (windowSlice values w i).length < 2
  · rw [if_pos hwin]
    exact ⟨0, rfl⟩
  · rw [if_neg hwin]
    exact ⟨_, rfl⟩

theorem mem_diff_fillna_is_val (values : List ℚ) :
    ∀ x ∈ (diffCol values).map PdVal.fillna0, ∃ q, x = PdVal.val q := by
  intro x hx
  rcases List.mem_map.mp hx with ⟨y, hy, rfl⟩
  rcases List.mem_map.mp hy with ⟨i, _, rfl⟩
  show ∃ q, (if i = 0 then PdVal.nan
      else PdVal.val (values.getD i 0 - values.getD (i - 1) 0)).fillna0 = PdVal.val q
  by_cases hz : i = 0
  · rw [if_pos hz]
    exact ⟨0, rfl⟩
  · rw [if_neg hz]
    exact ⟨_, rfl⟩

theorem mem_pct_clamped_is_val (values : List ℚ) :
    ∀ x ∈ ((pctChangeCol values).map PdVal.fillna0).map PdVal.replaceInf0,
      ∃ q, x = PdVal.val q := by
  intro x hx
  rcases List.mem_map.mp hx with ⟨y, hy, rfl⟩
  rcases List.mem_map.mp hy with ⟨z, _, rfl⟩
  exact fillna_replace_is_val z

/-- C5: on a non-empty input, the first row's rolling means (windows 5 and
10) equal the first raw value, the rolling standard deviation is clamped to
0 wherever the window holds fewer than 2 points, the first row's first
difference and percent change are 0, and every cell of every produced
feature column is a finite value — no NaN or infinity survives the clamps. -/
theorem C5_feature_builder_first_rows_and_finiteness (sqrtFn : ℚ → ℚ)
    (records : List RawRecord) (h : records ≠ []) :
    ((rollingMean (records.map RawRecord.value) 5).head?
        = some (PdVal.val ((records.map RawRecord.value).headD 0)) ∧
     (rollingMean (records.map RawRecord.value) 10).head?
        = some (PdVal.val ((records.map RawRecord.value).headD 0))) ∧
    (∀ i < records.length, (windowSlice (records.map RawRecord.value) 5 i).length < 2 →
        ((rollingStd sqrtFn (records.map RawRecord.value) 5).map PdVal.fillna0).getD i PdVal.nan
          = PdVal.val 0) ∧
    (((diffCol (records.map RawRecord.value)).map PdVal.fillna0).head?
        = some (PdVal.val 0) ∧
     (((pctChangeCol (records.map RawRecord.value)).map PdVal.fillna0).map
        PdVal.replaceInf0).head? = some (PdVal.val 0)) ∧
    (∀ p ∈ featureTable sqrtFn records, ∀ x ∈ p.2, ∃ q, x = PdVal.val q) := by
  rcases records with _ | ⟨r, rs⟩
  · exact absurd rfl h
  refine ⟨⟨?_, ?_⟩, ?_, ⟨?_, ?_⟩, ?_⟩
  · rw [rollingMean, head?_range_map _ _ (by simp)]
    norm_num [windowSlice]
  · rw [rollingMean, head?_range_map _ _ (by simp)]
    norm_num [windowSlice]
  · intro i hi hwin
    have hilen : i <
        ((rollingStd sqrtFn ((r :: rs).map RawRecord.value) 5).map PdVal.fillna0).length := by
      simpa [rollingStd] using hi
    rw [List.getD_eq_getElem _ _ hilen]
    simp only [rollingStd, List.getElem_map, List.getElem_range]
    show (if (windowSlice ((r :: rs).map RawRecord.value) 5 i).length < 2 then PdVal.nan
        else PdVal.val (sqrtFn (sampleVariance
          (windowSlice ((r :: rs).map RawRecord.value) 5 i)))).fillna0 = PdVal.val 0
    rw [if_pos hwin]
    rfl
  · rw [List.head?_map, diffCol, head?_range_map _ _ (by simp)]
    rfl
  · rw [List.head?_map, List.head?_map, pctChangeCol, head?_range_map _ _ (by simp)]
    rfl
  · intro p hp x hx
    simp only [featureTable, List.mem_append, List.mem_cons, List.mem_map,
      List.not_mem_nil, or_false] at hp
    rcases hp with ((rfl | rfl | rfl | rfl | rfl | rfl | rfl | rfl | rfl) | ⟨c, _, rfl⟩)
      | ⟨c, _, rfl⟩
    · exact mem_map_val (fun a : RawRecord => (a.ts_hour : ℚ)) _ x hx
    · exact mem_map_val (fun a : RawRecord => (a.ts_dow : ℚ)) _ x hx
    · exact mem_map_val (fun a : RawRecord => if a.ts_dow = 5 ∨ a.ts_dow = 6 then (1 : ℚ) else 0) _ x hx
    · rcases List.mem_map.mp hx with ⟨v, _, rfl⟩
      exact ⟨v, rfl⟩
    · exact mem_rollingMean_is_val _ 5 x hx
    · exact mem_rollingMean_is_val _ 10 x hx
    · exact mem_rollingStd_fillna_is_val sqrtFn _ 5 x hx
    · exact mem_diff_fillna_is_val _ x hx
    · exact mem_pct_clamped_is_val _ x hx
    · exact mem_map_val (fun a : RawRecord => if a.metric_name = c then (1 : ℚ) else 0) _ x hx
    · exact mem_map_val (fun a : RawRecord => if a.source = c then (1 : ℚ) else 0) _ x hx

/-- Witness for C5 at a concrete three-row input. -/
theorem C5_witness :
    sampleRecords ≠ [] ∧
    (rollingMean (sampleRecords.map RawRecord.value) 5).head?
      = some (PdVal.val ((sampleRecords.map RawRecord.value).headD 0)) ∧
    ((rollingStd id (sampleRecords.map RawRecord.value) 5).map PdVal.fillna0).getD 0 PdVal.nan
      = PdVal.val 0 :=
  ⟨by decide,
   (C5_feature_builder_first_rows_and_finiteness id sampleRecords (by decide)).1.1,
   (C5_feature_builder_first_rows_and_finiteness id sampleRecords (by decide)).2.1 0
     (by decide) (by decide)⟩

theorem mem_categoriesOf {x : String} {values : List String} :
    x ∈ categoriesOf values ↔ x ∈ values := by
  unfold categoriesOf
  rw [(List.perm_insertionSort _ _).mem_iff, List.mem_dedup]

theorem categoriesOf_nodup (values : List String) : (categoriesOf values).Nodup :=
  ((List.perm_insertionSort _ _).nodup_iff).mpr (List.nodup_dedup values)

theorem metric_dummy_ne_timestamp (c : String) : ("metric_name_" ++ c) ≠ "timestamp" := by
  intro heq
  have hlen := congrArg String.length heq
  rw [String.length_append] at hlen
  have h12 : "metric_name_".length = 12 := rfl
  have h9 : "timestamp".length = 9 := rfl
  rw [h12, h9] at hlen
  omega

theorem source_dummy_ne_timestamp (c : String) : ("source_" ++ c) ≠ "timestamp" := by
  intro heq
  have hd := congrArg String.data heq
  rw [String.data_append] at hd
  have h1 : "source_".data = ['s', 'o', 'u', 'r', 'c', 'e', '_'] := rfl
  have h2 : "timestamp".data = ['t', 'i', 'm', 'e', 's', 't', 'a', 'm', 'p'] := rfl
  rw [h1, h2] at hd
  simp only [List.cons_append] at hd
  injection hd with hchar _
  exact absurd hchar (by decide)

theorem dummy_mem_feature_columns (records : List RawRecord) (name : String)
    (hmem : (name, Dtype.numeric) ∈ engineeredSchema records) (hne : name ≠ "timestamp") :
    name ∈ feature_columns records := by
  unfold feature_columns numeric_columns
  rw [List.mem_filter]
  constructor
  · exact List.mem_map.mpr ⟨(name, Dtype.numeric), List.mem_filter.mpr ⟨hmem, by simp⟩, rfl⟩
  · simpa using hne

theorem sum_indicator_eq_one (x : String) :
    ∀ l : List String, l.Nodup → x ∈ l →
      (l.map (fun c => if x = c then (1 : ℚ) else 0)).sum = 1 := by
  intro l
  induction l with
  | nil => intro _ hm; cases hm
  | cons a t ih =>
      intro hn hm
      rcases List.mem_cons.mp hm with rfl | hm2
      · simp only [List.map_cons, List.sum_cons, if_pos rfl]
        have hx : x ∉ t := (List.nodup_cons.mp hn).1
        have hz : (t.map (fun c => if x = c then (1 : ℚ) else 0)).sum = 0 := by
          apply List.sum_eq_zero
          intro y hy
          rcases List.mem_map.mp hy with ⟨c, hc, rfl⟩
          rw [if_neg]
          intro hxc
          exact hx (hxc ▸ hc)
        rw [hz]
        norm_num
      · have hxa : x ≠ a := by
          rintro rfl
          exact (List.nodup_cons.mp hn).1 hm2
        simp only [List.map_cons, List.sum_cons, if_neg hxa]
        rw [ih (List.nodup_cons.mp hn).2 hm2]
        norm_num

/-- C6: every one-hot indicator column created for `metric_name` and `source`
values is a member of the frozen feature-column list; that list is exactly
the numeric columns of the engineered table minus the raw timestamp column;
and the indicator expansion is genuinely one-hot — for every row, exactly one
indicator of each categorical group is 1 (their sum is 1). -/
theorem C6_one_hot_columns_in_feature_set (records : List RawRecord) :
    (∀ c ∈ categoriesOf (records.map RawRecord.metric_name),
        ("metric_name_" ++ c) ∈ feature_columns records) ∧
    (∀ c ∈ categoriesOf (records.map RawRecord.source),
        ("source_" ++ c) ∈ feature_columns records) ∧
    (∀ name, name ∈ feature_columns records ↔
        name ∈ numeric_columns records ∧ name ≠ "timestamp") ∧
    (∀ r ∈ records,
        ((categoriesOf (records.map RawRecord.metric_name)).map
            (fun c => if r.metric_name = c then (1 : ℚ) else 0)).sum = 1 ∧
        ((categoriesOf (records.map RawRecord.source)).map
            (fun c => if r.source = c then (1 : ℚ) else 0)).sum = 1) := by
  refine ⟨?_, ?_, ?_, ?_⟩
  · intro c hc
    apply dummy_mem_feature_columns
    · unfold engineeredSchema
      exact List.mem_append.mpr (Or.inl (List.mem_append.mpr
        (Or.inr (List.mem_map.mpr ⟨c, hc, rfl⟩))))
    · exact metric_dummy_ne_timestamp c
  · intro c hc
    apply dummy_mem_feature_columns
    · unfold engineeredSchema
      exact List.mem_append.mpr (Or.inr (List.mem_map.mpr ⟨c, hc, rfl⟩))
    · exact source_dummy_ne_timestamp c
  · intro name
    unfold feature_columns
    rw [List.mem_filter]
    constructor
    · rintro ⟨h1, h2⟩
      exact ⟨h1, by simpa using h2⟩
    · rintro ⟨h1, h2⟩
      exact ⟨h1, by simpa using h2⟩
  · intro r hr
    constructor
    · exact sum_indicator_eq_one r.metric_name _ (categoriesOf_nodup _)
        (mem_categoriesOf.mpr (List.mem_map.mpr ⟨r, hr, rfl⟩))
    · exact sum_indicator_eq_one r.source _ (categoriesOf_nodup _)
        (mem_categoriesOf.mpr (List.mem_map.mpr ⟨r, hr, rfl⟩))

/-- Witness for C6 at a concrete one-row input. -/
theorem C6_witness :
    ("metric_name_" ++ "m") ∈ feature_columns [oneRec] ∧
    ((categoriesOf (([oneRec] : List RawRecord).map RawRecord.metric_name)).map
        (fun c => if oneRec.metric_name = c then (1 : ℚ) else 0)).sum = 1 :=
  ⟨(C6_one_hot_columns_in_feature_set [oneRec]).1 "m"
      (mem_categoriesOf.mpr (by simp [oneRec])),
   ((C6_one_hot_columns_in_feature_set [oneRec]).2.2.2 oneRec
      (List.mem_singleton.mpr rfl)).1⟩

theorem sorted_getElem_mono {s : List ℚ} (hs : List.Sorted (fun a b : ℚ => a ≤ b) s)
    {i j : ℕ} (hi : i < s.length) (hj : j < s.length) (hij : i ≤ j) :
    s[i] ≤ s[j] := by
  rcases Nat.lt_or_ge i j with hlt | hge
  · exact List.pairwise_iff_getElem.mp hs i j hi hj hlt
  · have heq : i = j := le_antisymm hij hge
    subst heq
    exact le_refl _

theorem quantile_eq (s : List ℚ) (p : ℚ) :
    quantile s p = s.getD ⌊p * ((s.length : ℚ) - 1)⌋₊ 0
      + (p * ((s.length : ℚ) - 1) - ((⌊p * ((s.length : ℚ) - 1)⌋₊ : ℕ) : ℚ))
        * (s.getD (⌊p * ((s.length : ℚ) - 1)⌋₊ + 1) (s.getD ⌊p * ((s.length : ℚ) - 1)⌋₊ 0)
           - s.getD ⌊p * ((s.length : ℚ) - 1)⌋₊ 0) := rfl

theorem quantile_le_getElem (s : List ℚ) (hs : List.Sorted (fun a b : ℚ => a ≤ b) s)
    (p : ℚ) (hp : 0 ≤ p) (k : ℕ)
    (hk1 : ⌊p * ((s.length : ℚ) - 1)⌋₊ < k) (hk2 : k < s.length) :
    quantile s p ≤ s[k] := by
  have hn1 : 1 ≤ s.length := by omega
  have hx1 : (1 : ℚ) ≤ (s.length : ℚ) := by exact_mod_cast hn1
  have hh0 : 0 ≤ p * ((s.length : ℚ) - 1) := mul_nonneg hp (by linarith)
  set f := ⌊p * ((s.length : ℚ) - 1)⌋₊ with hfdef
  have hfn : f < s.length := by omega
  have hf1n : f + 1 < s.length := by omega
  have hlo : s.getD f 0 = s[f] := List.getD_eq_getElem s 0 hfn
  have hhi : s.getD (f + 1) (s.getD f 0) = s[f + 1] := List.getD_eq_getElem s _ hf1n
  have hmono1 : s[f] ≤ s[f + 1] := sorted_getElem_mono hs hfn hf1n (by omega)
  have hfk : s[f + 1] ≤ s[k] := sorted_getElem_mono hs hf1n hk2 (by omega)
  have hfl := Nat.floor_le hh0
  have hfu := Nat.lt_floor_add_one (p * ((s.length : ℚ) - 1))
  rw [← hfdef] at hfl hfu
  rw [quantile_eq, ← hfdef, hhi, hlo]
  have hmul : (p * ((s.length : ℚ) - 1) - (f : ℚ)) * (s[f + 1] - s[f]) ≤ s[f + 1] - s[f] :=
    mul_le_of_le_one_left (by linarith) (by linarith)
  linarith

theorem getElem_le_quantile (s : List ℚ) (hs : List.Sorted (fun a b : ℚ => a ≤ b) s)
    (p : ℚ) (hp : 0 ≤ p) (k : ℕ)
    (hk1 : k ≤ ⌊p * ((s.length : ℚ) - 1)⌋₊) (hfn : ⌊p * ((s.length : ℚ) - 1)⌋₊ < s.length)
    (hk2 : k < s.length) :
    s[k] ≤ quantile s p := by
  have hn1 : 1 ≤ s.length := by omega
  have hx1 : (1 : ℚ) ≤ (s.length : ℚ) := by exact_mod_cast hn1
  have hh0 : 0 ≤ p * ((s.length : ℚ) - 1) := mul_nonneg hp (by linarith)
  set f := ⌊p * ((s.length : ℚ) - 1)⌋₊ with hfdef
  have hlo : s.getD f 0 = s[f] := List.getD_eq_getElem s 0 hfn
  have hkf : s[k] ≤ s[f] := sorted_getElem_mono hs hk2 hfn hk1
  have hfl := Nat.floor_le hh0
  rw [← hfdef] at hfl
  have hfrac0 : 0 ≤ p * ((s.length : ℚ) - 1) - (f : ℚ) := by linarith
  by_cases hf1 : f + 1 < s.length
  · have hhi : s.getD (f + 1) (s.getD f 0) = s[f + 1] := List.getD_eq_getElem s _ hf1
    have hm : s[f] ≤ s[f + 1] := sorted_getElem_mono hs hfn hf1 (by omega)
    rw [quantile_eq, ← hfdef, hhi, hlo]
    nlinarith [mul_nonneg hfrac0 (by linarith : (0 : ℚ) ≤ s[f + 1] - s[f])]
  · have hge : s.length ≤ f + 1 := by omega
    have hhi : s.getD (f + 1) (s.getD f 0) = s.getD f 0 := List.getD_eq_default _ _ hge
    rw [quantile_eq, ← hfdef, hhi, hlo]
    have hzero : (p * ((s.length : ℚ) - 1) - (f : ℚ)) * (s[f] - s[f]) = 0 := by ring
    linarith

theorem floor_quarter_pos (n : ℕ) (hn : 1 ≤ n) :
    ⌊(0.25 : ℚ) * ((n : ℚ) - 1)⌋₊ = (n - 1) / 4 := by
  have hcast : ((n : ℚ) - 1) = ((n - 1 : ℕ) : ℚ) := by
    rw [Nat.cast_sub hn, Nat.cast_one]
  rw [hcast]
  have hq : (0.25 : ℚ) * ((n - 1 : ℕ) : ℚ) = ((n - 1 : ℕ) : ℚ) / ((4 : ℕ) : ℚ) := by
    norm_num
    ring
  rw [hq, Nat.floor_div_nat, Nat.floor_natCast]

theorem floor_three_quarters_pos (n : ℕ) (hn : 1 ≤ n) :
    ⌊(0.75 : ℚ) * ((n : ℚ) - 1)⌋₊ = 3 * (n - 1) / 4 := by
  have hcast : (0.75 : ℚ) * ((n : ℚ) - 1) = ((3 * (n - 1) : ℕ) : ℚ) / ((4 : ℕ) : ℚ) := by
    rw [Nat.cast_mul, Nat.cast_sub hn]
    norm_num
    ring
  rw [hcast, Nat.floor_div_nat, Nat.floor_natCast]

theorem iqr_count_bound (values : List ℚ) (h5 : 5 ≤ values.length) :
    iqr_anomalies values + (3 * (values.length - 1) / 4 - (values.length - 1) / 4)
      ≤ values.length := by
  set n := values.length with hn
  set sorted := List.insertionSort (fun a b : ℚ => a ≤ b) values with hsorteddef
  have hperm : sorted.Perm values := List.perm_insertionSort _ _
  have hslen : sorted.length = n := by rw [hperm.length_eq, hn]
  have hsorted : List.Sorted (fun a b : ℚ => a ≤ b) sorted :=
    List.sorted_insertionSort _ _
  have hn1 : 1 ≤ n := by omega
  set f1 := (n - 1) / 4 with hf1def
  set f3 := 3 * (n - 1) / 4 with hf3def
  have hq1floor : ⌊(0.25 : ℚ) * ((sorted.length : ℚ) - 1)⌋₊ = f1 := by
    rw [hslen, floor_quarter_pos n hn1]
  have hq3floor : ⌊(0.75 : ℚ) * ((sorted.length : ℚ) - 1)⌋₊ = f3 := by
    rw [hslen, floor_three_quarters_pos n hn1]
  have hf13 : f1 + 1 ≤ f3 := by omega
  have hf3n : f3 ≤ n - 1 := by omega
  have hb1 : f1 + 1 < sorted.length := by omega
  have hb3 : f3 < sorted.length := by omega
  have hQ1 : quantile sorted 0.25 ≤ sorted[f1 + 1] :=
    quantile_le_getElem sorted hsorted 0.25 (by norm_num) (f1 + 1)
      (by rw [hq1floor]; omega) hb1
  have hQ3 : sorted[f3] ≤ quantile sorted 0.75 :=
    getElem_le_quantile sorted hsorted 0.75 (by norm_num) f3
      (by rw [hq3floor]) (by rw [hq3floor]; omega) hb3
  have hm13 : sorted[f1 + 1] ≤ sorted[f3] := sorted_getElem_mono hsorted hb1 hb3 hf13
  have hQ13 : quantile sorted 0.25 ≤ quantile sorted 0.75 :=
    le_trans hQ1 (le_trans hm13 hQ3)
  have hlow : iqrLower sorted ≤ quantile sorted 0.25 := by
    rw [iqrLower]
    linarith
  have hup : quantile sorted 0.75 ≤ iqrUpper sorted := by
    rw [iqrUpper]
    linarith
  have hunflagged : ∀ i, f1 + 1 ≤ i → i ≤ f3 → ∀ hi : i < sorted.length,
      iqrFlag (iqrLower sorted) (iqrUpper sorted) sorted[i] = false := by
    intro i hi1 hi3 hi
    have h1 : quantile sorted 0.25 ≤ sorted[i] :=
      le_trans hQ1 (sorted_getElem_mono hsorted hb1 hi hi1)
    have h2 : sorted[i] ≤ quantile sorted 0.75 :=
      le_trans (sorted_getElem_mono hsorted hi hb3 hi3) hQ3
    rw [iqrFlag]
    simp only [Bool.or_eq_false_iff, decide_eq_false_iff_not, not_lt]
    exact ⟨le_trans hlow h1, le_trans h2 hup⟩
  have hcount1 : iqr_anomalies values
      = sorted.countP (iqrFlag (iqrLower sorted) (iqrUpper sorted)) := by
    show (values.filter (iqrFlag (iqrLower sorted) (iqrUpper sorted))).length = _
    rw [← List.countP_eq_length_filter]
    exact (hperm.countP_eq _).symm
  have hslice_all : ∀ x ∈ (sorted.drop (f1 + 1)).take (f3 - f1),
      iqrFlag (iqrLower sorted) (iqrUpper sorted) x = false := by
    intro x hx
    rcases List.mem_iff_getElem.mp hx with ⟨j, hj, rfl⟩
    have hjlen : j < f3 - f1 ∧ f1 + 1 + j < sorted.length := by
      rw [List.length_take, List.length_drop] at hj
      omega
    simp only [List.getElem_take, List.getElem_drop]
    exact hunflagged (f1 + 1 + j) (by omega) (by omega) hjlen.2
  have hcount2 : (f3 - f1)
      ≤ sorted.countP (fun x => !(iqrFlag (iqrLower sorted) (iqrUpper sorted) x)) := by
    calc (f3 - f1) = ((sorted.drop (f1 + 1)).take (f3 - f1)).length := by
          rw [List.length_take, List.length_drop]
          omega
      _ = ((sorted.drop (f1 + 1)).take (f3 - f1)).countP
            (fun x => !(iqrFlag (iqrLower sorted) (iqrUpper sorted) x)) := by
          symm
          rw [List.countP_eq_length]
          intro a ha
          rw [hslice_all a ha]
          rfl
      _ ≤ _ := List.Sublist.countP_le _
            ((List.take_sublist _ _).trans (List.drop_sublist _ _))
  have hsum : sorted.countP (iqrFlag (iqrLower sorted) (iqrUpper sorted))
      + sorted.countP (fun x => !(iqrFlag (iqrLower sorted) (iqrUpper sorted) x))
      = sorted.length := by
    have hlen := List.length_eq_countP_add_countP
      (iqrFlag (iqrLower sorted) (iqrUpper sorted)) sorted
    have hfun : (fun a => decide ¬(iqrFlag (iqrLower sorted) (iqrUpper sorted) a = true))
        = (fun x => !(iqrFlag (iqrLower sorted) (iqrUpper sorted) x)) := by
      funext a
      cases h : iqrFlag (iqrLower sorted) (iqrUpper sorted) a <;> simp [h]
    rw [hfun] at hlen
    omega
  rw [hcount1]
  omega

theorem zscore_bound (values : List ℚ) (hz : 1 ≤ zscore_anomalies values) :
    9 * zscore_anomalies values ≤ values.length ∧ 10 ≤ values.length := by
  set nq : ℚ := (values.length : ℚ) with hnq
  set mean := values.sum / nq with hmeandef
  set ssd := (values.map (fun v => (v - mean) ^ 2)).sum with hssddef
  have hzdef : zscore_anomalies values = (values.filter (zFlag mean ssd nq)).length := rfl
  have hssd0 : 0 ≤ ssd := by
    rw [hssddef]
    apply List.sum_nonneg
    intro x hx
    rcases List.mem_map.mp hx with ⟨v, _, rfl⟩
    positivity
  have hne : values.filter (zFlag mean ssd nq) ≠ [] := by
    intro hnil
    rw [hzdef, hnil] at hz
    simp at hz
  rcases List.exists_mem_of_ne_nil _ hne with ⟨v0, hv0⟩
  have hv0m : v0 ∈ values := (List.mem_filter.mp hv0).1
  have hv0f : (v0 - mean) ^ 2 * nq > 9 * ssd := by
    have hd := (List.mem_filter.mp hv0).2
    exact of_decide_eq_true hd
  have hterm : (v0 - mean) ^ 2 ≤ ssd := by
    rw [hssddef]
    exact List.single_le_sum
      (fun x hx => by rcases List.mem_map.mp hx with ⟨v, _, rfl⟩; positivity) _
      (List.mem_map.mpr ⟨v0, hv0m, rfl⟩)
  have hssd_pos : 0 < ssd := by
    rcases eq_or_lt_of_le hssd0 with heq | h
    · exfalso
      rw [← heq] at hv0f hterm
      nlinarith [sq_nonneg (v0 - mean)]
    · exact h
  have hn9 : (9 : ℚ) < nq := by
    nlinarith [sq_nonneg (v0 - mean), hssd_pos, hterm, hv0f]
  have hn10 : 10 ≤ values.length := by
    have h9 : (9 : ℚ) < (values.length : ℚ) := by rw [← hnq]; exact hn9
    have : 9 < values.length := by exact_mod_cast h9
    omega
  have hnpos : (0 : ℚ) < nq := by linarith
  have hlb : ∀ x ∈ (values.filter (zFlag mean ssd nq)).map (fun v => (v - mean) ^ 2),
      9 * ssd / nq ≤ x := by
    intro x hx
    rcases List.mem_map.mp hx with ⟨v, hv, rfl⟩
    have hvf : (v - mean) ^ 2 * nq > 9 * ssd :=
      of_decide_eq_true (List.mem_filter.mp hv).2
    rw [div_le_iff₀ hnpos]
    linarith
  have hsum_lb : ((values.filter (zFlag mean ssd nq)).length : ℚ) * (9 * ssd / nq)
      ≤ ((values.filter (zFlag mean ssd nq)).map (fun v => (v - mean) ^ 2)).sum := by
    have hc := List.card_nsmul_le_sum
      ((values.filter (zFlag mean ssd nq)).map (fun v => (v - mean) ^ 2)) (9 * ssd / nq) hlb
    rw [List.length_map, nsmul_eq_mul] at hc
    exact hc
  have hsum_ub : ((values.filter (zFlag mean ssd nq)).map (fun v => (v - mean) ^ 2)).sum
      ≤ ssd := by
    rw [hssddef]
    apply List.Sublist.sum_le_sum (List.Sublist.map _ (List.filter_sublist _))
    intro x hx
    rcases List.mem_map.mp hx with ⟨v, _, rfl⟩
    positivity
  have hkey : ((values.filter (zFlag mean ssd nq)).length : ℚ) * (9 * ssd) ≤ nq * ssd := by
    have h1 : ((values.filter (zFlag mean ssd nq)).length : ℚ) * (9 * ssd / nq) ≤ ssd :=
      le_trans hsum_lb hsum_ub
    calc ((values.filter (zFlag mean ssd nq)).length : ℚ) * (9 * ssd)
        = (((values.filter (zFlag mean ssd nq)).length : ℚ) * (9 * ssd / nq)) * nq := by
          field_simp
      _ ≤ ssd * nq := mul_le_mul_of_nonneg_right h1 (le_of_lt hnpos)
      _ = nq * ssd := mul_comm _ _
  have h9len : (9 : ℚ) * ((values.filter (zFlag mean ssd nq)).length : ℚ) ≤ nq := by
    nlinarith [hkey, hssd_pos]
  constructor
  · rw [hzdef]
    have hcast : ((9 * (values.filter (zFlag mean ssd nq)).length : ℕ) : ℚ)
        ≤ (values.length : ℚ) := by
      push_cast
      rw [← hnq]
      linarith
    exact_mod_cast hcast
  · exact hn10

theorem column_anomalies_le (values : List ℚ) :
    zscore_anomalies values + iqr_anomalies values ≤ values.length := by
  by_cases hz : zscore_anomalies values = 0
  · rw [hz, zero_add]
    show (values.filter _).length ≤ values.length
    exact List.length_filter_le _ _
  · have hz1 : 1 ≤ zscore_anomalies values := Nat.one_le_iff_ne_zero.mpr hz
    obtain ⟨hz9, hn10⟩ := zscore_bound values hz1
    have hiqr := iqr_count_bound values (by omega)
    omega

theorem stat_total_le (data : List (String × List (Option ℚ))) :
    (statistical_anomaly_detection data).total_anomalies
      ≤ (statistical_anomaly_detection data).total_points := by
  show ((data.filterMap statColumnEntry).map
      (fun q => q.2.z_score_anomalies + q.2.iqr_anomalies)).sum
    ≤ ((data.filterMap statColumnEntry).map (fun q => q.2.total_points)).sum
  apply List.sum_le_sum
  intro q hq
  rcases List.mem_filterMap.mp hq with ⟨p, _, hpe⟩
  by_cases hlen : (p.2.filterMap id).length < 5
  · simp [statColumnEntry, hlen] at hpe
  · have hq2 : q.2 = ColDetail.mk (zscore_anomalies (p.2.filterMap id))
        (iqr_anomalies (p.2.filterMap id)) (p.2.filterMap id).length := by
      simp only [statColumnEntry, if_neg hlen, Option.some_inj] at hpe
      rw [← hpe]
    rw [hq2]
    exact column_anomalies_le _

theorem stat_rate_le_one (data : List (String × List (Option ℚ))) :
    (statistical_anomaly_detection data).anomaly_rate ≤ 1 := by
  have hrate : (statistical_anomaly_detection data).anomaly_rate
      = ((statistical_anomaly_detection data).total_anomalies : ℚ)
        / ((max (statistical_anomaly_detection data).total_points 1 : ℕ) : ℚ) := rfl
  rw [hrate]
  have hden : (0 : ℚ) < ((max (statistical_anomaly_detection data).total_points 1 : ℕ) : ℚ) := by
    exact_mod_cast lt_of_lt_of_le one_pos (le_max_right _ _)
  rw [div_le_one hden]
  have h2 : (statistical_anomaly_detection data).total_anomalies
      ≤ max (statistical_anomaly_detection data).total_points 1 :=
    le_trans (stat_total_le data) (le_max_left _ _)
  exact_mod_cast h2

/-- C10 counterexample: the negation of the claimed reachability — there is
no input on which `anomaly_rate` exceeds 1.  The z-score test flags fewer
than n/9 points of a column (Chebyshev) and the IQR fences always retain the
middle half of the order statistics, so every qualifying column has
`z_count + iqr_count <= n`, and summing over columns keeps
`total_anomalies <= total_points`. -/
theorem C10_counterexample_rate_cannot_exceed_one :
    ¬ ∃ data : List (String × List (Option ℚ)),
        1 < (statistical_anomaly_detection data).anomaly_rate := by
  rintro ⟨data, hd⟩
  exact absurd hd (not_lt.mpr (stat_rate_le_one data))

/-- C10 amended: for every input table the statistical `anomaly_rate` lies in
[0, 1] — although one value may be flagged by both the z-score and the IQR
test, the combined count never exceeds the point count — and the downstream
statistical confidence `min(anomaly_rate * 5, 1.0)` stays capped at 1. -/
theorem C10_amended_rate_in_unit_interval (data : List (String × List (Option ℚ))) :
    0 ≤ (statistical_anomaly_detection data).anomaly_rate ∧
    (statistical_anomaly_detection data).anomaly_rate ≤ 1 ∧
    min ((statistical_anomaly_detection data).anomaly_rate * 5) 1.0 ≤ 1 := by
  refine ⟨div_nonneg (Nat.cast_nonneg _) (Nat.cast_nonneg _), stat_rate_le_one data, ?_⟩
  calc min ((statistical_anomaly_detection data).anomaly_rate * 5) 1.0 ≤ 1.0 :=
        min_le_right _ _
    _ = 1 := by norm_num
